import Mathlib

/-!
Verification development for the Movies API repository.

The definitions below are a shallow embedding of the logic-bearing parts of
the repository:

* `app/core/config.py` — pagination constants and the status value set;
* `app/crud/movie.py` — `get_movies`, `get_movies_by_genre`,
  `get_movies_by_rating`, `_split_tokens`, `get_similar_movies`;
* `app/crud/movie_list.py` — `_resolve_titles_to_movies`, `create_list`,
  `update_list`;
* `app/routes/movies.py` — `list_movies_endpoint`,
  `get_movies_by_rating_endpoint`, `create_movie_endpoint`;
* `app/schemas/movie.py` — the `status` validator of `MovieBase` /
  `MovieCreate`.

The SQLAlchemy store is modelled as a `List Movie` in insertion order; a SQL
query without ORDER BY returns rows in that order, `ORDER BY` is modelled by
sorting, `OFFSET`/`LIMIT` by `drop`/`take`, and `COUNT` over the filtered
subquery by the length of the filtered list.  Floats (`vote_average`,
`min_rating`, `max_rating`) are modelled as `Rat`: the code only ever
compares and negates ratings, so any linearly ordered field is a faithful
model of the (finite, non-NaN) float values the API handles.  Python string
operations (`strip`, `lower`, `upper`, `split`, comparison) are modelled by
executable character-level functions; as in CPython they act on code points
(the model restricts case mapping to ASCII, which covers the repository's
normalised status values and the case-insensitivity claims).
-/

deriving instance DecidableEq for Except

namespace MovieAPI

/-- Configuration constant from `app/core/config.py`: `DEFAULT_LIMIT = 20`. -/
def DEFAULT_LIMIT : Nat := 20

/-- Configuration constant from `app/core/config.py`: `MAX_LIMIT = 100`. -/
def MAX_LIMIT : Nat := 100

/-- Allowed status values from `app/core/config.py`:
`MOVIE_STATUS_VALUES = {"released", "not released"}`. -/
def MOVIE_STATUS_VALUES : List String := ["released", "not released"]

/-- ASCII lower-casing of one character, as Python `str.lower` acts on the
ASCII range. -/
def chLower (c : Char) : Char :=
  if 'A' ≤ c ∧ c ≤ 'Z' then Char.ofNat (c.toNat + 32) else c

/-- ASCII upper-casing of one character, as Python `str.upper` acts on the
ASCII range. -/
def chUpper (c : Char) : Char :=
  if 'a' ≤ c ∧ c ≤ 'z' then Char.ofNat (c.toNat - 32) else c

/-- Python `str.lower`. -/
def sLower (s : String) : String := ⟨s.data.map chLower⟩

/-- Python `str.upper`. -/
def sUpper (s : String) : String := ⟨s.data.map chUpper⟩

/-- Whitespace recognised by Python `str.strip`. -/
def isWS (c : Char) : Bool := c = ' ' ∨ c = '\t' ∨ c = '\n' ∨ c = '\r'

/-- Python `str.strip()`: remove leading and trailing whitespace. -/
def sTrim (s : String) : String :=
  ⟨((s.data.dropWhile isWS).reverse.dropWhile isWS).reverse⟩

/-- Helper for `splitComma`: accumulate the current field (reversed) while
scanning. -/
def splitCommaGo (cur : List Char) : List Char → List (List Char)
  | [] => [cur.reverse]
  | c :: rest =>
    if c = ',' then cur.reverse :: splitCommaGo [] rest
    else splitCommaGo (c :: cur) rest

/-- Python `value.split(",")`. -/
def splitComma (s : String) : List String :=
  (splitCommaGo [] s.data).map (fun l => ⟨l⟩)

/-- Lexicographic code-point comparison of character lists; this is how
Python compares strings. -/
def charLe : List Char → List Char → Bool
  | [], _ => true
  | _ :: _, [] => false
  | a :: as, b :: bs => if a < b then true else if a = b then charLe as bs else false

/-- Python string `<=` (lexicographic on code points). -/
def strLe (a b : String) : Bool := charLe a.data b.data

/-- Whether the first list is an initial segment of the second. -/
def beginsWith : List Char → List Char → Bool
  | [], _ => true
  | _ :: _, [] => false
  | a :: as, b :: bs => a == b && beginsWith as bs

/-- Whether `needle` occurs contiguously inside the second list. -/
def containsSub (needle : List Char) : List Char → Bool
  | [] => needle.isEmpty
  | c :: rest => beginsWith needle (c :: rest) || containsSub needle rest

/-- Case-insensitive containment test, modelling SQL `column ILIKE '%pat%'`
(`Movie.title.ilike(f"%\x7btitle\x7d%")` and the genre filter): the pattern
occurs as a substring of the column value, ignoring letter case. -/
def containsCI (hay pat : String) : Bool :=
  containsSub (pat.data.map chLower) (hay.data.map chLower)

/-- A row of the `movies` table (`app/models/movie.py`), restricted to the
columns the core logic reads: `id`, `title`, `vote_average`, `status`,
`adult`, `genres`, `keywords`.  The remaining columns are opaque payload
touched by no claim. -/
structure Movie where
  id : Nat
  title : String
  vote_average : Option Rat
  status : Option String
  adult : Option Bool
  genres : Option String
  keywords : Option String
deriving DecidableEq, Repr

/-- The `_split_tokens` helper of `app/crud/movie.py`: `None`/empty give the
empty set; otherwise split on commas, strip each token, drop empties.  The
Python function returns a set; the model returns the deduplicated token
list, which carries the same membership and cardinality. -/
def split_tokens : Option String → List String
  | none => []
  | some s =>
    if s = "" then []
    else (((splitComma s).map sTrim).filter (fun t => !(t == ""))).dedup

/-- The sorted shared-token list `sorted(ref_tokens & cand_tokens)` of
`get_similar_movies`. -/
def sharedSorted (a b : Option String) : List String :=
  List.insertionSort (fun x y => strLe x y = true)
    ((split_tokens a).filter (fun t => decide (t ∈ split_tokens b)))

/-- The similarity score `len(shared_g) * 2 + len(shared_k)` of
`get_similar_movies` (genres weighted double). -/
def simScore (ref m : Movie) : Nat :=
  (sharedSorted ref.genres m.genres).length * 2 +
    (sharedSorted ref.keywords m.keywords).length

/-- The `SimilarMovie` response schema of `app/schemas/movie.py`. -/
structure SimilarMovie where
  id : Nat
  title : String
  shared_genres : List String
  shared_keywords : List String
  similarity_score : Nat
deriving DecidableEq, Repr

/-- The `SimilarMovie(...)` value built for one candidate inside
`get_similar_movies`. -/
def mkSimilar (ref m : Movie) : SimilarMovie :=
  { id := m.id
    title := m.title
    shared_genres := sharedSorted ref.genres m.genres
    shared_keywords := sharedSorted ref.keywords m.keywords
    similarity_score := simScore ref m }

/-- The candidate query of `get_similar_movies`:
`select(Movie).where(Movie.id != ref_movie.id).where(Movie.status == "released")`.
SQL equality against a NULL `status` is not true, so rows with no status are
excluded. -/
def candidatesOf (store : List Movie) (ref : Movie) : List Movie :=
  store.filter (fun m => decide (m.id ≠ ref.id ∧ m.status = some "released"))

/-- The `items` list of `get_similar_movies` before sorting: one
`SimilarMovie` per candidate whose score reaches `min_shared_tokens`. -/
def similarItems (store : List Movie) (ref : Movie) (minScore : Nat) :
    List SimilarMovie :=
  (candidatesOf store ref).filterMap (fun m =>
    if minScore ≤ simScore ref m then some (mkSimilar ref m) else none)

/-- The dictionary `movie_dict = \x7bm.id: m for m in candidates\x7d`: the last
binding for a key wins, so look from the right. -/
def movieDict (candidates : List Movie) (i : Nat) : Option Movie :=
  candidates.reverse.find? (fun m => m.id == i)

/-- The rating used by the comparison key of `get_similar_movies`:
`movie_dict[x.id].vote_average or 0` (a missing rating counts as 0; an
absent dictionary key cannot occur for the items actually sorted and is sent
to 0 here). -/
def itemRating (candidates : List Movie) (x : SimilarMovie) : Rat :=
  match movieDict candidates x.id with
  | some m => m.vote_average.getD 0
  | none => 0

/-- The sort key of `get_similar_movies`, as a comparison: ascending
lexicographic order on
`(-(rating or 0), -similarity_score, title.lower())`, i.e. rating
descending, then score descending, then lower-cased title ascending. -/
def simLe (candidates : List Movie) (a b : SimilarMovie) : Bool :=
  if itemRating candidates b < itemRating candidates a then true
  else if itemRating candidates a < itemRating candidates b then false
  else if b.similarity_score < a.similarity_score then true
  else if a.similarity_score < b.similarity_score then false
  else strLe (sLower a.title) (sLower b.title)

/-- The `get_similar_movies` function of `app/crud/movie.py`: build the
scored items over the candidate pool, sort them by the key above, return the
first `limit`.  Python defaults: `limit = 10`, `min_shared_tokens = 1`. -/
def get_similar_movies (store : List Movie) (ref : Movie) (limit : Nat)
    (min_shared_tokens : Nat) : List SimilarMovie :=
  (List.insertionSort (fun a b => simLe (candidatesOf store ref) a b = true)
    (similarItems store ref min_shared_tokens)).take limit

/-- The optional filter criteria of `get_movies` in `app/crud/movie.py`. -/
structure MovieFilters where
  title : Option String
  genre : Option String
  adult : Option Bool
  status : Option String
  min_vote_average : Option Rat
deriving DecidableEq, Repr

/-- The empty criteria set (every field absent). -/
def noFilters : MovieFilters :=
  { title := none, genre := none, adult := none, status := none
    min_vote_average := none }

/-- The conjunction of filter clauses `get_movies` adds to its query.  Each
clause mirrors one `if …: query = query.where(…)` line:
`if title:` / `if genre:` / `if status:` are Python truthiness tests, so an
empty string imposes no constraint; SQL comparisons against NULL columns are
not true, so a NULL `genres`, `adult` or `vote_average` fails the
corresponding clause; `status` is re-normalised (`strip` + `lower`) before
the equality comparison. -/
def movieMatches (f : MovieFilters) (m : Movie) : Bool :=
  (match f.title with
   | some t => if t = "" then true else containsCI m.title t
   | none => true) &&
  (match f.genre with
   | some g =>
     if g = "" then true
     else match m.genres with
       | some gs => containsCI gs g
       | none => false
   | none => true) &&
  (match f.adult with
   | some a => m.adult == some a
   | none => true) &&
  (match f.status with
   | some st =>
     if st = "" then true else m.status == some (sLower (sTrim st))
   | none => true) &&
  (match f.min_vote_average with
   | some v =>
     match m.vote_average with
     | some r => decide (v ≤ r)
     | none => false
   | none => true)

/-- The `get_movies` function of `app/crud/movie.py`: clamp `limit` to
`MAX_LIMIT`, filter, count the filtered set, then apply
`offset(skip).limit(limit)`.  Python defaults: `skip = 0`, `limit = 20`. -/
def get_movies (store : List Movie) (skip limit : Nat) (f : MovieFilters) :
    List Movie × Nat :=
  let lim := if MAX_LIMIT < limit then MAX_LIMIT else limit
  let filtered := store.filter (movieMatches f)
  (((filtered.drop skip).take lim), filtered.length)

/-- The `get_movies_by_genre` function of `app/crud/movie.py`. -/
def get_movies_by_genre (store : List Movie) (genre : String)
    (skip limit : Nat) : List Movie × Nat :=
  let lim := if MAX_LIMIT < limit then MAX_LIMIT else limit
  let filtered := store.filter (fun m =>
    match m.genres with
    | some gs => containsCI gs genre
    | none => false)
  (((filtered.drop skip).take lim), filtered.length)

/-- The filter of `get_movies_by_rating`:
`vote_average IS NOT NULL`, then the optional lower and upper bounds. -/
def ratingMatches (minR maxR : Option Rat) (m : Movie) : Bool :=
  match m.vote_average with
  | none => false
  | some v =>
    (match minR with
     | some r => decide (r ≤ v)
     | none => true) &&
    (match maxR with
     | some r => decide (v ≤ r)
     | none => true)

/-- The `get_movies_by_rating` function of `app/crud/movie.py`: filter on the
rating bounds, order by `vote_average` descending, count before pagination,
then `offset`/`limit`. -/
def get_movies_by_rating (store : List Movie) (minR maxR : Option Rat)
    (skip limit : Nat) : List Movie × Nat :=
  let lim := if MAX_LIMIT < limit then MAX_LIMIT else limit
  let filtered := store.filter (ratingMatches minR maxR)
  let ordered := List.insertionSort
    (fun a b : Movie => b.vote_average.getD 0 ≤ a.vote_average.getD 0) filtered
  (((ordered.drop skip).take lim), filtered.length)

/-- The `MovieListResponse` pagination envelope of `app/schemas/movie.py`. -/
structure MovieListResponse where
  items : List Movie
  total : Nat
  skip : Nat
  limit : Nat
deriving DecidableEq, Repr

/-- The `list_movies_endpoint` handler of `app/routes/movies.py`: it
normalises a truthy `status` (`status.strip().lower() if status else None`),
delegates to `get_movies`, and wraps the result in an envelope carrying the
requested `skip` and `limit` verbatim.  The handler raises no error, so it
is modelled as always returning `Except.ok`. -/
def list_movies_endpoint (store : List Movie) (skip limit : Nat)
    (title genre : Option String) (adult : Option Bool)
    (status : Option String) (min_vote_average : Option Rat) :
    Except String MovieListResponse :=
  let statusArg : Option String :=
    match status with
    | some s => if s = "" then none else some (sLower (sTrim s))
    | none => none
  let r := get_movies store skip limit
    { title := title, genre := genre, adult := adult, status := statusArg
      min_vote_average := min_vote_average }
  Except.ok { items := r.1, total := r.2, skip := skip, limit := limit }

/-- The `get_movies_by_rating_endpoint` handler of `app/routes/movies.py`:
when neither bound is supplied it raises HTTP 422 before building any query;
otherwise it delegates to `get_movies_by_rating` and wraps the result. -/
def get_movies_by_rating_endpoint (store : List Movie)
    (min_rating max_rating : Option Rat) (skip limit : Nat) :
    Except String MovieListResponse :=
  match min_rating, max_rating with
  | none, none =>
    Except.error "At least one of min_rating or max_rating must be provided"
  | _, _ =>
    let r := get_movies_by_rating store min_rating max_rating skip limit
    Except.ok { items := r.1, total := r.2, skip := skip, limit := limit }

/-- The `normalise_status` validator of `MovieBase` in
`app/schemas/movie.py`: `None` passes through; otherwise strip + lower and
require membership in `MOVIE_STATUS_VALUES`, raising `ValueError`
otherwise. -/
def normalise_status : Option String → Except String (Option String)
  | none => Except.ok none
  | some v =>
    let value := sLower (sTrim v)
    if value ∈ MOVIE_STATUS_VALUES then Except.ok (some value)
    else Except.error "status must be one of the allowed values"

/-- The fields of the `MovieCreate` request schema that the model tracks.
`title` is a required plain `str` — Pydantic accepts any string for it,
including the empty string; there is no length or emptiness validator. -/
structure MovieCreateInput where
  title : String
  vote_average : Option Rat
  status : Option String
  adult : Option Bool
  genres : Option String
  keywords : Option String
deriving DecidableEq, Repr

/-- Validation performed when a `MovieCreate` payload is parsed: the only
field-level validator in the schema is `normalise_status`; every other field
is accepted as given. -/
def validate_movie_create (inp : MovieCreateInput) :
    Except String MovieCreateInput :=
  match normalise_status inp.status with
  | Except.error e => Except.error e
  | Except.ok st =>
    Except.ok { inp with status := st }

/-- The `create_movie` function of `app/crud/movie.py`: insert a new row
built from the validated payload; the store assigns the next id. -/
def create_movie (store : List Movie) (newId : Nat) (inp : MovieCreateInput) :
    List Movie :=
  store ++ [{ id := newId, title := inp.title
              vote_average := inp.vote_average, status := inp.status
              adult := inp.adult, genres := inp.genres
              keywords := inp.keywords }]

/-- The `create_movie_endpoint` handler of `app/routes/movies.py` together
with the schema parsing FastAPI performs first: an invalid payload is
rejected with HTTP 422 before the handler (and hence the store) is reached;
a valid payload is inserted. -/
def create_movie_endpoint (store : List Movie) (newId : Nat)
    (inp : MovieCreateInput) : Except String (List Movie) :=
  match validate_movie_create inp with
  | Except.error e => Except.error e
  | Except.ok v => Except.ok (create_movie store newId v)

/-- The normalisation loop of `_resolve_titles_to_movies` in
`app/crud/movie_list.py`: strip each title, skip falsy (empty) ones, skip
titles whose upper-cased form was already seen, otherwise record the
upper-cased key and keep the stripped title. -/
def normaliseGo (seen : List String) : List String → List String
  | [] => []
  | t :: ts =>
    let key := sTrim t
    if key = "" then normaliseGo seen ts
    else if sUpper key ∈ seen then normaliseGo seen ts
    else key :: normaliseGo (sUpper key :: seen) ts

/-- The `normalised_titles` list computed by `_resolve_titles_to_movies`. -/
def normaliseTitles (titles : List String) : List String :=
  normaliseGo [] titles

/-- The `_resolve_titles_to_movies` function of `app/crud/movie_list.py`.
The store query is
`db.query(Movie).filter(Movie.title.in_(normalised_titles)).order_by(asc(Movie.title))`:
SQL `IN` compares strings exactly — under SQLite's default BINARY collation
the comparison is case-sensitive — and the rows come back sorted by title.
The dictionary `movies_by_title = \x7bm.title.upper(): m for m in movies\x7d`
keeps the last binding per upper-cased title, and the final loop walks the
normalised titles in order, keeping those found in the dictionary. -/
def resolveTitles (store : List Movie) (titles : List String) : List Movie :=
  let normalised := normaliseTitles titles
  if normalised.isEmpty then []
  else
    let movies := List.insertionSort (fun a b => strLe a.title b.title = true)
      (store.filter (fun m => decide (m.title ∈ normalised)))
    normalised.filterMap (fun t =>
      movies.reverse.find? (fun m => sUpper m.title == sUpper t))

/-- A row of the `movie_list_items` table (`app/models/movie_list.py`),
restricted to the columns the logic reads. -/
structure MovieListItem where
  list_id : Nat
  movie_id : Nat
  position : Nat
deriving DecidableEq, Repr

/-- The item rows built by `create_list`/`update_list`:
`enumerate(movies, start=1)` paired with the list id. -/
def buildItems (listId : Nat) (movies : List Movie) : List MovieListItem :=
  (List.enumFrom 1 movies).map (fun p =>
    { list_id := listId, movie_id := p.2.id, position := p.1 })

/-- The `create_list` function of `app/crud/movie_list.py`, viewed through
the item rows it inserts for the fresh list id: resolve the titles and
number the resolved movies from 1. -/
def create_list (store : List Movie) (listId : Nat) (titles : List String) :
    List MovieListItem :=
  buildItems listId (resolveTitles store titles)

/-- The `update_list` function of `app/crud/movie_list.py`, acting on the
whole `movie_list_items` table: with a new title set it first deletes every
item of the list
(`db.query(MovieListItem).filter(MovieListItem.list_id == movie_list.id).delete()`)
and then inserts the rebuilt rows; with no title set the items are left
unchanged. -/
def update_list (store : List Movie) (table : List MovieListItem)
    (listId : Nat) (titles : Option (List String)) : List MovieListItem :=
  match titles with
  | none => table
  | some ts =>
    table.filter (fun it => decide (it.list_id ≠ listId)) ++
      buildItems listId (resolveTitles store ts)

/-- The `items` relationship of a `MovieList`
(`order_by="MovieListItem.position"`): the rows of the list, ordered by
position. -/
def itemsOf (table : List MovieListItem) (listId : Nat) : List MovieListItem :=
  List.insertionSort (fun a b : MovieListItem => a.position ≤ b.position)
    (table.filter (fun it => it.list_id == listId))

/-- Spec-side rendering of the List Resolver deduplication rule, written
from the specification's words: keep only the first occurrence of each
distinct case-folded title, in input order.  Used to state the refinement
claim C5 against the implementation's `normaliseTitles`. -/
def specDedupCI : List String → List String
  | [] => []
  | t :: ts =>
    t :: specDedupCI (ts.filter (fun s => !(sUpper s == sUpper t)))
termination_by l => l.length
decreasing_by
  simp only [List.length_cons]
  exact Nat.lt_succ_of_le (List.length_filter_le _ _)

/-! Concrete fixtures used by witnesses and counterexamples.  `exR` and `exC`
are the reference/candidate pair of the specification's section 8 similarity
example; `exInception` and `exInterstellar` are the movies of its List
Resolver example. -/

/-- Reference movie of the specification's similarity example:
`genres="Action,Drama"`, `keywords="heist,noir"`. -/
def exR : Movie :=
  { id := 1, title := "Ref", vote_average := none, status := some "released"
    adult := none, genres := some "Action,Drama", keywords := some "heist,noir" }

/-- Candidate movie of the specification's similarity example:
`genres="Action,Comedy"`, `keywords="heist"`, rating 8. -/
def exC : Movie :=
  { id := 2, title := "Cand", vote_average := some 8, status := some "released"
    adult := none, genres := some "Action,Comedy", keywords := some "heist" }

/-- Two-movie store for the similarity example. -/
def exStore : List Movie := [exR, exC]

/-- The movie titled `Inception` from the resolver example. -/
def exInception : Movie :=
  { id := 1, title := "Inception", vote_average := none
    status := some "released", adult := none, genres := none, keywords := none }

/-- The movie titled `Interstellar` from the resolver example. -/
def exInterstellar : Movie :=
  { id := 2, title := "Interstellar", vote_average := none
    status := some "released", adult := none, genres := none, keywords := none }

end MovieAPI

namespace MovieAPI

/-! Order lemmas for the comparison functions used by the sorting steps. -/

lemma charLe_cons_iff {a b : Char} {as bs : List Char} :
    charLe (a :: as) (b :: bs) = true ↔ a < b ∨ (a = b ∧ charLe as bs = true) := by
  rw [charLe]
  split_ifs with h1 h2
  · simp [h1]
  · simp [h1, h2]
  · simp [h1, h2]

lemma charLe_total : ∀ as bs : List Char, charLe as bs = true ∨ charLe bs as = true := by
  intro as
  induction as with
  | nil => intro bs; left; rfl
  | cons a as ih =>
    intro bs
    cases bs with
    | nil => right; rfl
    | cons b bs =>
      rw [charLe_cons_iff, charLe_cons_iff]
      rcases lt_trichotomy a b with h | h | h
      · exact Or.inl (Or.inl h)
      · rcases ih bs with h' | h'
        · exact Or.inl (Or.inr ⟨h, h'⟩)
        · exact Or.inr (Or.inr ⟨h.symm, h'⟩)
      · exact Or.inr (Or.inl h)

lemma charLe_trans : ∀ as bs cs : List Char,
    charLe as bs = true → charLe bs cs = true → charLe as cs = true := by
  intro as
  induction as with
  | nil => intro bs cs _ _; rfl
  | cons a as ih =>
    intro bs cs h1 h2
    cases bs with
    | nil => simp [charLe] at h1
    | cons b bs =>
      cases cs with
      | nil => simp [charLe] at h2
      | cons c cs =>
        rw [charLe_cons_iff] at h1 h2 ⊢
        rcases h1 with h1 | ⟨h1e, h1'⟩
        · rcases h2 with h2 | ⟨h2e, _⟩
          · exact Or.inl (lt_trans h1 h2)
          · exact Or.inl (h2e ▸ h1)
        · rcases h2 with h2 | ⟨h2e, h2'⟩
          · exact Or.inl (h1e ▸ h2)
          · exact Or.inr ⟨h1e.trans h2e, ih bs cs h1' h2'⟩

lemma strLe_total (a b : String) : strLe a b = true ∨ strLe b a = true :=
  charLe_total a.data b.data

lemma strLe_trans {a b c : String} (h1 : strLe a b = true) (h2 : strLe b c = true) :
    strLe a c = true :=
  charLe_trans a.data b.data c.data h1 h2

lemma simLe_iff (cands : List Movie) (a b : SimilarMovie) :
    simLe cands a b = true ↔
      itemRating cands b < itemRating cands a ∨
      (itemRating cands a = itemRating cands b ∧
        (b.similarity_score < a.similarity_score ∨
          (a.similarity_score = b.similarity_score ∧
            strLe (sLower a.title) (sLower b.title) = true))) := by
  unfold simLe
  split_ifs with h1 h2 h3 h4
  · simp [h1]
  · simp [h1, ne_of_lt h2]
  · have he : itemRating cands a = itemRating cands b :=
      le_antisymm (not_lt.mp h1) (not_lt.mp h2)
    simp [he, h3, lt_irrefl]
  · simp [h1, h3, ne_of_lt h4]
  · have he : itemRating cands a = itemRating cands b :=
      le_antisymm (not_lt.mp h1) (not_lt.mp h2)
    have he2 : a.similarity_score = b.similarity_score :=
      le_antisymm (not_lt.mp h3) (not_lt.mp h4)
    simp [he, he2, lt_irrefl]

lemma simLe_total (cands : List Movie) (a b : SimilarMovie) :
    simLe cands a b = true ∨ simLe cands b a = true := by
  rw [simLe_iff, simLe_iff]
  rcases lt_trichotomy (itemRating cands a) (itemRating cands b) with h | h | h
  · exact Or.inr (Or.inl h)
  · rcases lt_trichotomy a.similarity_score b.similarity_score with h' | h' | h'
    · exact Or.inr (Or.inr ⟨h.symm, Or.inl h'⟩)
    · rcases strLe_total (sLower a.title) (sLower b.title) with hs | hs
      · exact Or.inl (Or.inr ⟨h, Or.inr ⟨h', hs⟩⟩)
      · exact Or.inr (Or.inr ⟨h.symm, Or.inr ⟨h'.symm, hs⟩⟩)
    · exact Or.inl (Or.inr ⟨h, Or.inl h'⟩)
  · exact Or.inl (Or.inl h)

lemma simLe_trans (cands : List Movie) {a b c : SimilarMovie}
    (h1 : simLe cands a b = true) (h2 : simLe cands b c = true) :
    simLe cands a c = true := by
  rw [simLe_iff] at h1 h2 ⊢
  rcases h1 with h1 | ⟨h1e, h1'⟩
  · rcases h2 with h2 | ⟨h2e, _⟩
    · exact Or.inl (lt_trans h2 h1)
    · exact Or.inl (h2e ▸ h1)
  · rcases h2 with h2 | ⟨h2e, h2'⟩
    · exact Or.inl (h1e ▸ h2)
    · refine Or.inr ⟨h1e.trans h2e, ?_⟩
      rcases h1' with h1' | ⟨h1s, h1t⟩
      · rcases h2' with h2' | ⟨h2s, _⟩
        · exact Or.inl (lt_trans h2' h1')
        · exact Or.inl (h2s ▸ h1')
      · rcases h2' with h2' | ⟨h2s, h2t⟩
        · exact Or.inl (h1s ▸ h2')
        · exact Or.inr ⟨h1s.trans h2s, strLe_trans h1t h2t⟩

lemma simLe_imp (cands : List Movie) {a b : SimilarMovie}
    (h : simLe cands a b = true) :
    itemRating cands b ≤ itemRating cands a ∧
      (itemRating cands a = itemRating cands b →
        b.similarity_score ≤ a.similarity_score ∧
          (a.similarity_score = b.similarity_score →
            strLe (sLower a.title) (sLower b.title) = true)) := by
  rw [simLe_iff] at h
  rcases h with h | ⟨he, h⟩
  · exact ⟨le_of_lt h, fun he => absurd h (by rw [he]; exact lt_irrefl _)⟩
  · refine ⟨le_of_eq he.symm, fun _ => ?_⟩
    rcases h with h | ⟨he2, hstr⟩
    · exact ⟨le_of_lt h, fun he2 => absurd h (by rw [he2]; exact lt_irrefl _)⟩
    · exact ⟨le_of_eq he2.symm, fun _ => hstr⟩

/-! Lemmas about the similarity pipeline. -/

lemma mem_sharedSorted {a b : Option String} {t : String} :
    t ∈ sharedSorted a b ↔ t ∈ split_tokens a ∧ t ∈ split_tokens b := by
  unfold sharedSorted
  rw [List.mem_insertionSort, List.mem_filter]
  simp

lemma sharedSorted_pairwise (a b : Option String) :
    (sharedSorted a b).Pairwise (fun x y => strLe x y = true) := by
  unfold sharedSorted
  haveI : IsTotal String (fun x y => strLe x y = true) := ⟨strLe_total⟩
  haveI : IsTrans String (fun x y => strLe x y = true) :=
    ⟨fun _ _ _ => strLe_trans⟩
  exact List.sorted_insertionSort _ _

lemma similarItems_length_le (store : List Movie) (ref : Movie) (minScore : Nat) :
    (similarItems store ref minScore).length ≤ store.length := by
  unfold similarItems candidatesOf
  exact le_trans (List.length_filterMap_le _ _) (List.length_filter_le _ _)

lemma get_similar_eq_sort_of_le {store : List Movie} {ref : Movie}
    {limit minScore : Nat} (h : store.length ≤ limit) :
    get_similar_movies store ref limit minScore =
      List.insertionSort (fun a b => simLe (candidatesOf store ref) a b = true)
        (similarItems store ref minScore) := by
  unfold get_similar_movies
  apply List.take_of_length_le
  rw [List.length_insertionSort]
  exact le_trans (similarItems_length_le store ref minScore) h

lemma mem_similarItems {store : List Movie} {ref : Movie} {minScore : Nat}
    {r : SimilarMovie} :
    r ∈ similarItems store ref minScore ↔
      ∃ m ∈ store, m.id ≠ ref.id ∧ m.status = some "released" ∧
        minScore ≤ simScore ref m ∧ r = mkSimilar ref m := by
  unfold similarItems candidatesOf
  rw [List.mem_filterMap]
  constructor
  · rintro ⟨m, hm, hr⟩
    rw [List.mem_filter] at hm
    by_cases hsc : minScore ≤ simScore ref m
    · rw [if_pos hsc] at hr
      have hd := of_decide_eq_true hm.2
      exact ⟨m, hm.1, hd.1, hd.2, hsc, (Option.some.inj hr).symm⟩
    · rw [if_neg hsc] at hr
      exact absurd hr (by simp)
  · rintro ⟨m, hm, hid, hst, hsc, hr⟩
    refine ⟨m, List.mem_filter.2 ⟨hm, decide_eq_true ⟨hid, hst⟩⟩, ?_⟩
    rw [if_pos hsc, hr]

/-- C1: for a store with distinct movie ids and a `limit` large enough that
the final cap does not discard anything, the similarity operation returns a
result for a store movie `m` exactly when `m` is `released`, differs from
the reference by identity, and scores at least `minScore`, where the score
is `2 × |shared genres| + 1 × |shared keywords|` over the comma-split,
trimmed, de-emptied token sets; the returned result carries the movie's
sorted shared genres, sorted shared keywords, and that score. -/
theorem similar_membership_exact (store : List Movie) (ref : Movie)
    (minScore limit : Nat) (m : Movie)
    (hndup : (store.map Movie.id).Nodup) (hlim : store.length ≤ limit)
    (hm : m ∈ store) :
    ((∃ r ∈ get_similar_movies store ref limit minScore,
        r.id = m.id ∧ r.title = m.title ∧
        r.shared_genres = sharedSorted ref.genres m.genres ∧
        r.shared_keywords = sharedSorted ref.keywords m.keywords ∧
        r.similarity_score = simScore ref m) ↔
      (m.status = some "released" ∧ m.id ≠ ref.id ∧ minScore ≤ simScore ref m)) ∧
    (∀ t, t ∈ sharedSorted ref.genres m.genres ↔
        t ∈ split_tokens ref.genres ∧ t ∈ split_tokens m.genres) ∧
    (∀ t, t ∈ sharedSorted ref.keywords m.keywords ↔
        t ∈ split_tokens ref.keywords ∧ t ∈ split_tokens m.keywords) ∧
    (sharedSorted ref.genres m.genres).Pairwise (fun x y => strLe x y = true) ∧
    (sharedSorted ref.keywords m.keywords).Pairwise (fun x y => strLe x y = true) ∧
    simScore ref m = 2 * (sharedSorted ref.genres m.genres).length +
      1 * (sharedSorted ref.keywords m.keywords).length := by
  refine ⟨?_, fun t => mem_sharedSorted, fun t => mem_sharedSorted,
    sharedSorted_pairwise _ _, sharedSorted_pairwise _ _, by unfold simScore; omega⟩
  rw [get_similar_eq_sort_of_le hlim]
  constructor
  · rintro ⟨r, hr, hid, -, -, -, -⟩
    rw [List.mem_insertionSort, mem_similarItems] at hr
    obtain ⟨m', hm', hid', hst', hsc', hr'⟩ := hr
    have : m' = m := by
      apply List.inj_on_of_nodup_map hndup hm' hm
      rw [← hid]; rw [hr']; rfl
    subst this
    exact ⟨hst', hid', hsc'⟩
  · rintro ⟨hst, hid, hsc⟩
    refine ⟨mkSimilar ref m, ?_, rfl, rfl, rfl, rfl, rfl⟩
    rw [List.mem_insertionSort, mem_similarItems]
    exact ⟨m, hm, hid, hst, hsc, rfl⟩

/-- Witness for C1 at the specification's section 8 example: the candidate
with one shared genre and one shared keyword (score 3) is returned with its
shared tokens. -/
theorem similar_membership_exact_witness :
    (1 : Nat) ≤ simScore exR exC ∧
    (∃ r ∈ get_similar_movies exStore exR 10 1,
      r.id = exC.id ∧ r.title = exC.title ∧
      r.shared_genres = sharedSorted exR.genres exC.genres ∧
      r.shared_keywords = sharedSorted exR.keywords exC.keywords ∧
      r.similarity_score = simScore exR exC) :=
  ⟨by decide, (similar_membership_exact exStore exR 1 10 exC (by decide)
    (by decide) (by decide)).1.mpr (by decide)⟩

/-- C2: the similarity operation returns at most `limit` results, and the
returned sequence is ordered by the movie's rating descending (a missing
rating counting as 0, via the candidate dictionary), then similarity score
descending, then lower-cased title ascending. -/
theorem similar_results_sorted_and_capped (store : List Movie) (ref : Movie)
    (limit minScore : Nat) :
    (get_similar_movies store ref limit minScore).length ≤ limit ∧
    (get_similar_movies store ref limit minScore).Pairwise (fun a b =>
      itemRating (candidatesOf store ref) b ≤ itemRating (candidatesOf store ref) a ∧
      (itemRating (candidatesOf store ref) a = itemRating (candidatesOf store ref) b →
        b.similarity_score ≤ a.similarity_score ∧
          (a.similarity_score = b.similarity_score →
            strLe (sLower a.title) (sLower b.title) = true))) := by
  constructor
  · exact List.length_take_le _ _
  · have hs : (List.insertionSort
        (fun a b => simLe (candidatesOf store ref) a b = true)
        (similarItems store ref minScore)).Pairwise
        (fun a b => simLe (candidatesOf store ref) a b = true) := by
      haveI : IsTotal SimilarMovie
          (fun a b => simLe (candidatesOf store ref) a b = true) :=
        ⟨simLe_total (candidatesOf store ref)⟩
      haveI : IsTrans SimilarMovie
          (fun a b => simLe (candidatesOf store ref) a b = true) :=
        ⟨fun _ _ _ => simLe_trans (candidatesOf store ref)⟩
      exact List.sorted_insertionSort _ _
    have hsub := List.Pairwise.sublist (List.take_sublist limit
      (List.insertionSort (fun a b => simLe (candidatesOf store ref) a b = true)
        (similarItems store ref minScore))) hs
    exact hsub.imp (fun h => simLe_imp (candidatesOf store ref) h)

/-- Witness for C2 at the section 8 example store. -/
theorem similar_sorted_witness :
    (get_similar_movies exStore exR 10 1).length ≤ 10 :=
  (similar_results_sorted_and_capped exStore exR 10 1).1

end MovieAPI

namespace MovieAPI

/-- C3: for every combination of filter criteria the list-movies query
returns a `total` equal to the number of store movies matching every
supplied criterion; the total is computed before pagination and hence does
not depend on `skip` or `limit`, and a `skip` at or beyond the total yields
an empty items page with the same total. -/
theorem get_movies_total_exact (store : List Movie) (f : MovieFilters)
    (skip limit skip' limit' : Nat) :
    (get_movies store skip limit f).2 = store.countP (movieMatches f) ∧
    (get_movies store skip limit f).2 = (get_movies store skip' limit' f).2 ∧
    (store.countP (movieMatches f) ≤ skip →
      (get_movies store skip limit f).1 = [] ∧
      (get_movies store skip limit f).2 = store.countP (movieMatches f)) := by
  refine ⟨by simp [get_movies, List.countP_eq_length_filter], rfl,
    fun h => ⟨?_, by simp [get_movies, List.countP_eq_length_filter]⟩⟩
  rw [List.countP_eq_length_filter] at h
  simp only [get_movies]
  rw [List.drop_eq_nil_of_le h]
  simp

/-- Witness for C3: skipping past the whole two-movie store yields an empty
page. -/
theorem get_movies_total_exact_witness :
    exStore.countP (movieMatches noFilters) ≤ 5 ∧
    (get_movies exStore 5 20 noFilters).1 = [] :=
  ⟨by decide, ((get_movies_total_exact exStore noFilters 5 20 0 20).2.2
    (by decide)).1⟩

/-- C4: on every paginated query path (`get_movies`, `get_movies_by_genre`,
`get_movies_by_rating`) a requested limit above the configured cap is
silently reduced to the cap (at most `MAX_LIMIT` items are returned, never
an error), a limit at or below the cap is honoured exactly, the cap is 100,
and the default requested limit is 20. -/
theorem limit_clamped (store : List Movie) (f : MovieFilters) (genre : String)
    (minR maxR : Option Rat) (skip limit : Nat) :
    (MAX_LIMIT < limit →
      (get_movies store skip limit f).1.length ≤ MAX_LIMIT ∧
      (get_movies_by_genre store genre skip limit).1.length ≤ MAX_LIMIT ∧
      (get_movies_by_rating store minR maxR skip limit).1.length ≤ MAX_LIMIT) ∧
    (limit ≤ MAX_LIMIT →
      (get_movies store skip limit f).1.length ≤ limit ∧
      (get_movies_by_genre store genre skip limit).1.length ≤ limit ∧
      (get_movies_by_rating store minR maxR skip limit).1.length ≤ limit) ∧
    MAX_LIMIT = 100 ∧ DEFAULT_LIMIT = 20 := by
  refine ⟨fun h => ?_, fun h => ?_, rfl, rfl⟩
  · unfold get_movies get_movies_by_genre get_movies_by_rating
    rw [if_pos h]
    exact ⟨List.length_take_le _ _, List.length_take_le _ _,
      List.length_take_le _ _⟩
  · unfold get_movies get_movies_by_genre get_movies_by_rating
    rw [if_neg (not_lt.2 h)]
    exact ⟨List.length_take_le _ _, List.length_take_le _ _,
      List.length_take_le _ _⟩

/-- Witness for C4: a request for 150 items returns at most the cap. -/
theorem limit_clamped_witness :
    MAX_LIMIT < 150 ∧
    (get_movies exStore 0 150 noFilters).1.length ≤ MAX_LIMIT :=
  ⟨by decide, ((limit_clamped exStore noFilters "x" none none 0 150).1
    (by decide)).1⟩

/-- C10: the pagination envelope returned by the list-movies endpoint
reports the caller-requested `skip` and `limit` verbatim; when the requested
limit exceeds the cap, at most `MAX_LIMIT` items are returned while the
reported `limit` keeps the original value, which therefore also exceeds the
number of items returned. -/
theorem envelope_reports_requested_values (store : List Movie)
    (skip limit : Nat) (title genre : Option String) (adult : Option Bool)
    (status : Option String) (mva : Option Rat) :
    ∃ resp, list_movies_endpoint store skip limit title genre adult status mva =
        Except.ok resp ∧
      resp.skip = skip ∧ resp.limit = limit ∧
      (MAX_LIMIT < limit →
        resp.items.length ≤ MAX_LIMIT ∧ resp.items.length < resp.limit) := by
  refine ⟨_, rfl, rfl, rfl, fun h => ?_⟩
  have hlen : (get_movies store skip limit
      { title := title, genre := genre, adult := adult
        status := match status with
          | some s => if s = "" then none else some (sLower (sTrim s))
          | none => none
        min_vote_average := mva }).1.length ≤ MAX_LIMIT := by
    unfold get_movies
    rw [if_pos h]
    exact List.length_take_le _ _
  exact ⟨hlen, lt_of_le_of_lt hlen h⟩

/-- Witness for C10 at requested limit 150 over the two-movie store. -/
theorem envelope_witness :
    MAX_LIMIT < 150 ∧
    (∃ resp, list_movies_endpoint exStore 0 150 none none none none none =
        Except.ok resp ∧
      resp.skip = 0 ∧ resp.limit = 150 ∧
      (MAX_LIMIT < 150 →
        resp.items.length ≤ MAX_LIMIT ∧ resp.items.length < resp.limit)) :=
  ⟨by decide, envelope_reports_requested_values exStore 0 150 none none none
    none none⟩

end MovieAPI

namespace MovieAPI

/-! Lemmas about the List Resolver. -/

lemma dedup_filter_pred (key : String) (seen : List String) (s : String) :
    (!decide (sUpper s ∈ sUpper key :: seen) && !(s == "")) =
    (!(sUpper s == sUpper key) && (!decide (sUpper s ∈ seen) && !(s == ""))) := by
  by_cases h1 : sUpper s = sUpper key <;> by_cases h2 : sUpper s ∈ seen <;>
    simp [h1, h2, List.mem_cons]

lemma normaliseGo_cons (seen : List String) (t : String) (ts : List String) :
    normaliseGo seen (t :: ts) =
      if sTrim t = "" then normaliseGo seen ts
      else if sUpper (sTrim t) ∈ seen then normaliseGo seen ts
      else sTrim t :: normaliseGo (sUpper (sTrim t) :: seen) ts := rfl

lemma normaliseGo_spec : ∀ (ts seen : List String),
    normaliseGo seen ts =
      specDedupCI (((ts.map sTrim).filter (fun s => !(s == ""))).filter
        (fun s => !(decide (sUpper s ∈ seen)))) := by
  intro ts
  induction ts with
  | nil => intro seen; simp [normaliseGo, specDedupCI]
  | cons t ts ih =>
    intro seen
    rw [normaliseGo_cons, List.map_cons, List.filter_cons]
    by_cases hk : sTrim t = ""
    · rw [if_pos hk, if_neg (show ¬((!(sTrim t == "")) = true) by simp [hk])]
      exact ih seen
    · rw [if_pos (show (!(sTrim t == "")) = true by simp [hk]), List.filter_cons]
      by_cases hseen : sUpper (sTrim t) ∈ seen
      · rw [if_neg hk, if_pos hseen,
          if_neg (show ¬((!(decide (sUpper (sTrim t) ∈ seen))) = true) by
            simp [hseen])]
        exact ih seen
      · rw [if_neg hk, if_neg hseen,
          if_pos (show (!(decide (sUpper (sTrim t) ∈ seen))) = true by
            simp [hseen]),
          specDedupCI]
        congr 1
        rw [ih (sUpper (sTrim t) :: seen)]
        congr 1
        simp only [List.filter_filter]
        apply List.filter_congr
        intro s _
        exact dedup_filter_pred (sTrim t) seen s

lemma filterMap_map_sublist {α β γ : Type} (f : α → Option β) (g : β → γ)
    (h : α → γ) (H : ∀ a b, f a = some b → g b = h a) :
    ∀ l : List α, ((l.filterMap f).map g).Sublist (l.map h) := by
  intro l
  induction l with
  | nil => simp
  | cons a l ih =>
    rw [List.filterMap_cons, List.map_cons]
    cases hfa : f a with
    | none => exact ih.cons (h a)
    | some b =>
      rw [List.map_cons, H a b hfa]
      exact ih.cons₂ (h a)

lemma resolveTitles_subset {store : List Movie} {titles : List String} :
    ∀ m ∈ resolveTitles store titles, m ∈ store := by
  intro m hm
  unfold resolveTitles at hm
  by_cases he : (normaliseTitles titles).isEmpty
  · rw [if_pos he] at hm
    exact absurd hm (List.not_mem_nil m)
  · rw [if_neg he] at hm
    rw [List.mem_filterMap] at hm
    obtain ⟨t, -, hfind⟩ := hm
    have h1 := List.mem_of_find?_eq_some hfind
    rw [List.mem_reverse, List.mem_insertionSort, List.mem_filter] at h1
    exact h1.1

lemma resolveTitles_upper_sublist (store : List Movie) (titles : List String) :
    ((resolveTitles store titles).map (fun m => sUpper m.title)).Sublist
      ((normaliseTitles titles).map sUpper) := by
  unfold resolveTitles
  by_cases he : (normaliseTitles titles).isEmpty
  · rw [if_pos he]
    simp
  · rw [if_neg he]
    apply filterMap_map_sublist
    intro t m hfind
    have := List.find?_some hfind
    exact eq_of_beq this

/-- C5: the List Resolver's normalisation equals the spec-side rule "trim
each title, drop entries empty after trimming, keep only the first
occurrence of each case-folded title in input order" (`specDedupCI`); every
resolved movie comes from the store (unmatched titles are silently dropped
and resolution never fails); the output order follows the deduplicated
input order (its case-folded titles form a subsequence of the deduplicated
input); and the specification's concrete example resolves to exactly
`[Inception, Interstellar]` in that order, also when the store holds the
two movies in the opposite order; an input title without a match
(`"Unknown Movie"`) is dropped without error. -/
theorem resolver_normalises_and_orders (store : List Movie)
    (titles : List String) :
    normaliseTitles titles =
      specDedupCI ((titles.map sTrim).filter (fun s => !(s == ""))) ∧
    (∀ m ∈ resolveTitles store titles, m ∈ store) ∧
    ((resolveTitles store titles).map (fun m => sUpper m.title)).Sublist
      ((normaliseTitles titles).map sUpper) ∧
    resolveTitles [exInterstellar, exInception]
      ["Inception", "inception", " Interstellar "] =
      [exInception, exInterstellar] ∧
    resolveTitles [exInception] ["Inception", "Unknown Movie"] =
      [exInception] := by
  refine ⟨?_, resolveTitles_subset, resolveTitles_upper_sublist store titles,
    by decide, by decide⟩
  rw [normaliseTitles, normaliseGo_spec]
  congr 1
  apply List.filter_eq_self.2
  intro s _
  simp

/-- Witness for C5: the specification's resolver example, with the store
holding the movies in the opposite order to the input. -/
theorem resolver_witness :
    resolveTitles [exInterstellar, exInception]
      ["Inception", "inception", " Interstellar "] =
      [exInception, exInterstellar] :=
  (resolver_normalises_and_orders [exInterstellar, exInception]
    ["Inception", "inception", " Interstellar "]).2.2.2.1

/-- C6 evidence: the store lookup of the List Resolver is case-sensitive.
The input title `INCEPTION` equals the stored title `Inception` up to
letter case, survives normalisation unchanged, and yet resolves to nothing,
because `Movie.title.in_(...)` compares exactly under SQLite's default
BINARY collation — contradicting both the claim and the function's own
docstring ("Resolve a list of (case-insensitive) titles"). -/
theorem resolver_lookup_case_sensitive_bug :
    sUpper "INCEPTION" = sUpper exInception.title ∧
    ("INCEPTION" : String) ≠ exInception.title ∧
    normaliseTitles ["INCEPTION"] = ["INCEPTION"] ∧
    resolveTitles [exInception] ["INCEPTION"] = [] := by decide

end MovieAPI

namespace MovieAPI

/-! Lemmas about list items and positions. -/

lemma buildItems_map_position (i : Nat) (ms : List Movie) :
    (buildItems i ms).map (fun it => it.position) = List.range' 1 ms.length := by
  unfold buildItems
  rw [List.map_map]
  exact List.enumFrom_map_fst 1 ms

lemma buildItems_map_movie_id (i : Nat) (ms : List Movie) :
    (buildItems i ms).map (fun it => it.movie_id) = ms.map Movie.id := by
  unfold buildItems
  rw [List.map_map]
  have : ((fun it : MovieListItem => it.movie_id) ∘
      (fun p : Nat × Movie =>
        (⟨i, p.2.id, p.1⟩ : MovieListItem))) = (Movie.id ∘ Prod.snd) := rfl
  rw [this, ← List.map_map]
  rw [List.enumFrom_map_snd]

lemma buildItems_list_id (i : Nat) (ms : List Movie) :
    ∀ it ∈ buildItems i ms, it.list_id = i := by
  intro it hit
  unfold buildItems at hit
  rw [List.mem_map] at hit
  obtain ⟨p, -, hp⟩ := hit
  rw [← hp]

lemma buildItems_sorted (i : Nat) (ms : List Movie) :
    (buildItems i ms).Pairwise
      (fun a b : MovieListItem => a.position ≤ b.position) := by
  have h := List.pairwise_lt_range' 1 ms.length 1
  rw [← buildItems_map_position i ms, List.pairwise_map] at h
  exact h.imp le_of_lt

lemma itemsOf_update (store : List Movie) (table : List MovieListItem)
    (listId : Nat) (titles : List String) :
    itemsOf (update_list store table listId (some titles)) listId =
      buildItems listId (resolveTitles store titles) := by
  unfold itemsOf update_list
  rw [List.filter_append, List.filter_filter]
  have h1 : table.filter (fun it =>
      (it.list_id == listId) && decide (it.list_id ≠ listId)) = [] := by
    apply List.filter_eq_nil_iff.2
    intro it _
    by_cases h : it.list_id = listId <;> simp [h]
  have h2 : (buildItems listId (resolveTitles store titles)).filter
      (fun it => it.list_id == listId) =
      buildItems listId (resolveTitles store titles) := by
    apply List.filter_eq_self.2
    intro it hit
    simp [buildItems_list_id listId (resolveTitles store titles) it hit]
  rw [h1, h2, List.nil_append]
  exact List.Sorted.insertionSort_eq (buildItems_sorted listId _)

/-- C7: after list-create, and after list-update with a new title set, the
list's items are exactly the resolved movies in order with positions
`1..N` (`List.range' 1 N`), strictly increasing with no gaps; the update is
a full replace — every surviving item of the list references a movie
resolved from the new title set, so items for titles absent from the new
set no longer appear. -/
theorem list_items_positions (store : List Movie) (table : List MovieListItem)
    (listId : Nat) (titles : List String) :
    ((create_list store listId titles).map (fun it => it.position) =
        List.range' 1 (resolveTitles store titles).length ∧
      (create_list store listId titles).map (fun it => it.movie_id) =
        (resolveTitles store titles).map Movie.id) ∧
    ((itemsOf (update_list store table listId (some titles)) listId).map
        (fun it => it.position) =
        List.range' 1 (resolveTitles store titles).length ∧
      (itemsOf (update_list store table listId (some titles)) listId).map
        (fun it => it.movie_id) =
        (resolveTitles store titles).map Movie.id) ∧
    (∀ it ∈ update_list store table listId (some titles),
      it.list_id = listId →
        it.movie_id ∈ (resolveTitles store titles).map Movie.id) := by
  refine ⟨⟨buildItems_map_position _ _, buildItems_map_movie_id _ _⟩, ?_, ?_⟩
  · rw [itemsOf_update]
    exact ⟨buildItems_map_position _ _, buildItems_map_movie_id _ _⟩
  · intro it hit hid
    unfold update_list at hit
    rw [List.mem_append] at hit
    rcases hit with hit | hit
    · rw [List.mem_filter] at hit
      exact absurd hid (of_decide_eq_true hit.2)
    · rw [← buildItems_map_movie_id listId]
      exact List.mem_map_of_mem _ hit

/-- Witness for C7: updating list 7 (which held a stale item for movie 99)
with the title set `["Inception"]` leaves only items referencing resolved
movies. -/
theorem list_items_positions_witness :
    (⟨7, 1, 1⟩ : MovieListItem) ∈
        update_list [exInception] [⟨7, 99, 1⟩] 7 (some ["Inception"]) ∧
    (1 : Nat) ∈ (resolveTitles [exInception] ["Inception"]).map Movie.id :=
  ⟨by decide, (list_items_positions [exInception] [⟨7, 99, 1⟩] 7
    ["Inception"]).2.2 ⟨7, 1, 1⟩ (by decide) rfl⟩

end MovieAPI

namespace MovieAPI

/-! Lemmas about the by-rating query. -/

lemma ratingMatches_min_only (r : Rat) (m : Movie) :
    ratingMatches (some r) none m =
      (match m.vote_average with
       | some v => decide (r ≤ v)
       | none => false) := by
  unfold ratingMatches
  cases m.vote_average <;> simp

lemma ratingMatches_max_only (r : Rat) (m : Movie) :
    ratingMatches none (some r) m =
      (match m.vote_average with
       | some v => decide (v ≤ r)
       | none => false) := by
  unfold ratingMatches
  cases m.vote_average <;> simp

lemma mem_rating_items {store : List Movie} {minR maxR : Option Rat}
    {skip limit : Nat} {m : Movie}
    (h : m ∈ (get_movies_by_rating store minR maxR skip limit).1) :
    ratingMatches minR maxR m = true := by
  unfold get_movies_by_rating at h
  have h1 := List.mem_of_mem_drop (List.mem_of_mem_take h)
  rw [List.mem_insertionSort, List.mem_filter] at h1
  exact h1.2

/-- C8 (amended): a by-rating request with neither bound fails with the
invalid-argument error, identically for every store (it consults the store
in no way); with only one bound it succeeds and filters only on that bound
(the total counts exactly the movies with a rating satisfying it, and every
returned movie satisfies it).  A status value outside the enumerated set is
rejected before any store access by the create/update schema validation
(`create_movie_endpoint` fails identically for every store); the
list-movies endpoint, however, does not reject such a status — it always
returns a page. -/
theorem invalid_argument_handling (store store' : List Movie)
    (skip limit : Nat) (r : Rat) (s : String) (inp : MovieCreateInput)
    (st : Option String) (title genre : Option String) (adult : Option Bool)
    (mva : Option Rat) :
    (get_movies_by_rating_endpoint store none none skip limit =
        Except.error "At least one of min_rating or max_rating must be provided" ∧
      get_movies_by_rating_endpoint store none none skip limit =
        get_movies_by_rating_endpoint store' none none skip limit) ∧
    (∃ resp, get_movies_by_rating_endpoint store (some r) none skip limit =
        Except.ok resp ∧
      resp.total = store.countP (fun m =>
        match m.vote_average with
        | some v => decide (r ≤ v)
        | none => false) ∧
      ∀ m ∈ resp.items, ∃ v, m.vote_average = some v ∧ r ≤ v) ∧
    (∃ resp, get_movies_by_rating_endpoint store none (some r) skip limit =
        Except.ok resp ∧
      resp.total = store.countP (fun m =>
        match m.vote_average with
        | some v => decide (v ≤ r)
        | none => false) ∧
      ∀ m ∈ resp.items, ∃ v, m.vote_average = some v ∧ v ≤ r) ∧
    (inp.status = some s → sLower (sTrim s) ∉ MOVIE_STATUS_VALUES →
      (validate_movie_create inp =
          Except.error "status must be one of the allowed values" ∧
        ∀ (store₀ : List Movie) (newId : Nat),
          create_movie_endpoint store₀ newId inp =
            Except.error "status must be one of the allowed values")) ∧
    (∃ resp, list_movies_endpoint store skip limit title genre adult st mva =
        Except.ok resp) := by
  refine ⟨⟨rfl, rfl⟩, ?_, ?_, ?_, ⟨_, rfl⟩⟩
  · refine ⟨_, rfl, ?_, ?_⟩
    · show (store.filter (ratingMatches (some r) none)).length = _
      rw [List.countP_eq_length_filter]
      congr 1
      apply List.filter_congr
      intro m _
      exact ratingMatches_min_only r m
    · intro m hm
      have := mem_rating_items hm
      rw [ratingMatches_min_only] at this
      cases hv : m.vote_average with
      | none => rw [hv] at this; exact absurd this (by simp)
      | some v =>
        rw [hv] at this
        exact ⟨v, rfl, of_decide_eq_true this⟩
  · refine ⟨_, rfl, ?_, ?_⟩
    · show (store.filter (ratingMatches none (some r))).length = _
      rw [List.countP_eq_length_filter]
      congr 1
      apply List.filter_congr
      intro m _
      exact ratingMatches_max_only r m
    · intro m hm
      have := mem_rating_items hm
      rw [ratingMatches_max_only] at this
      cases hv : m.vote_average with
      | none => rw [hv] at this; exact absurd this (by simp)
      | some v =>
        rw [hv] at this
        exact ⟨v, rfl, of_decide_eq_true this⟩
  · intro hst hbad
    have hval : validate_movie_create inp =
        Except.error "status must be one of the allowed values" := by
      unfold validate_movie_create normalise_status
      rw [hst]
      simp only [if_neg hbad]
    refine ⟨hval, fun store₀ newId => ?_⟩
    unfold create_movie_endpoint
    rw [hval]

/-- Witness for C8 (amended): a create payload whose status is `bogus` is
rejected by the schema validation, identically for every store. -/
theorem invalid_argument_handling_witness :
    (MovieCreateInput.status ⟨"T", none, some "bogus", none, none, none⟩ =
        some "bogus" ∧ sLower (sTrim "bogus") ∉ MOVIE_STATUS_VALUES) ∧
    (validate_movie_create ⟨"T", none, some "bogus", none, none, none⟩ =
        Except.error "status must be one of the allowed values" ∧
      ∀ (store₀ : List Movie) (newId : Nat),
        create_movie_endpoint store₀ newId
            ⟨"T", none, some "bogus", none, none, none⟩ =
          Except.error "status must be one of the allowed values") :=
  ⟨⟨rfl, by decide⟩,
    (invalid_argument_handling [] [] 0 20 0 "bogus"
      ⟨"T", none, some "bogus", none, none, none⟩ none none none none none).2.2.2.1
      rfl (by decide)⟩

/-- C8 counterexample: a list-movies request carrying a status value outside
the two-member enumerated set is not rejected — the endpoint normalises it,
filters with it, and returns an ok page (here an empty one) instead of an
invalid-argument error. -/
theorem invalid_status_not_rejected_cx :
    sLower (sTrim "not a status") ∉ MOVIE_STATUS_VALUES ∧
    list_movies_endpoint [exInception] 0 20 none none none
        (some "not a status") none =
      Except.ok { items := [], total := 0, skip := 0, limit := 20 } := by decide

/-- C9 counterexample: a create payload whose title is the empty string is
accepted, and the movie is stored with an empty title — the create
operation does not fail on an empty title. -/
theorem create_accepts_empty_title_cx :
    create_movie_endpoint [] 1 ⟨"", none, none, none, none, none⟩ =
      Except.ok [⟨1, "", none, none, none, none, none⟩] := by decide

/-- C9 (amended): the movie create operation requires the title field to be
present but applies no emptiness check to it — the only field-level
validation is of `status`.  Any title string, the empty string included, is
accepted and stored verbatim. -/
theorem create_title_stored_verbatim (store : List Movie) (newId : Nat)
    (inp : MovieCreateInput) :
    (inp.status = none →
      create_movie_endpoint store newId inp =
        Except.ok (store ++ [⟨newId, inp.title, inp.vote_average, inp.status,
          inp.adult, inp.genres, inp.keywords⟩])) ∧
    (∀ out, validate_movie_create inp = Except.ok out → out.title = inp.title) ∧
    (∀ out, validate_movie_create inp = Except.ok out →
      (create_movie store newId out).map (fun m => m.title) =
        store.map (fun m => m.title) ++ [inp.title]) := by
  have hval : ∀ out, validate_movie_create inp = Except.ok out →
      out.title = inp.title := by
    intro out hout
    unfold validate_movie_create at hout
    cases hns : normalise_status inp.status with
    | error e => rw [hns] at hout; exact absurd hout (by simp)
    | ok st =>
      rw [hns] at hout
      have := Except.ok.inj hout
      rw [← this]
  refine ⟨fun hst => ?_, hval, fun out hout => ?_⟩
  · unfold create_movie_endpoint validate_movie_create normalise_status
    rw [hst]
    rfl
  · unfold create_movie
    rw [List.map_append]
    simp [hval out hout]

/-- Witness for C9 (amended): the empty title is stored verbatim. -/
theorem create_title_stored_verbatim_witness :
    (MovieCreateInput.status ⟨"", none, none, none, none, none⟩ = none) ∧
    create_movie_endpoint [] 1 ⟨"", none, none, none, none, none⟩ =
      Except.ok ([] ++ [⟨1, "", none, none, none, none, none⟩]) :=
  ⟨rfl, (create_title_stored_verbatim [] 1 ⟨"", none, none, none, none, none⟩).1 rfl⟩

end MovieAPI
